import Mathlib

/- Verification of the conversation graph of a langgraph + streamlit chat
application (src/graph.py): agent-input window construction, the
summarization trigger and fold, and the web-search and URL-fetch tools,
embedded as pure Lean functions over explicit state. External effects (the
react agent executor, the chat model, the HTTP fetch pipeline, the search
provider and the vector store ranking) are parameters of the embedded
functions. -/

/-- Chat messages as used by the graph: human (user), ai (assistant),
system and tool messages, each carrying text content. -/
inductive Msg where
  | human (content : String)
  | ai (content : String)
  | system (content : String)
  | tool (content : String)
deriving DecidableEq, Repr

/-- Whether a message is an AIMessage (assistant-authored). -/
def Msg.isAI : Msg → Bool
  | .ai _ => true
  | _ => false

/-- The graph state: MessagesState plus a summary string. -/
structure ChatState where
  messages : List Msg
  summary : String
deriving DecidableEq, Repr

/-- Embeds the Python slice xs[-n:]: the last n elements (all of them when
fewer than n exist). -/
def lastSlice (n : Nat) (xs : List Msg) : List Msg :=
  xs.drop (xs.length - n)

/-- Spec-side reading of the last n elements: reverse, take n, reverse. -/
def lastN (n : Nat) (xs : List Msg) : List Msg :=
  (xs.reverse.take n).reverse

/-- Content of the system message call_model prepends when a summary exists. -/
def summarySystemText (summary : String) : String :=
  "Here is a summary of the conversation so far: " ++ summary ++
    ". Use this to inform your response."

/-- The input list call_model hands to the react agent: a system message
carrying the summary when the summary is non-empty, then the last five
messages (graph.py lines 22-36). -/
def buildAgentInput (state : ChatState) : List Msg :=
  (if state.summary = "" then []
   else [Msg.system (summarySystemText state.summary)]) ++
    lastSlice 5 state.messages

/-- Result of the conversation node: the messages update returned to the
graph, and whether st.error was called. -/
structure CallModelResult where
  messages : List Msg
  errorShown : Bool
deriving DecidableEq, Repr

/-- Embeds call_model (graph.py lines 21-55). The react agent executor is a
function from the input message list to the output message list; indexing
the last element of an empty output raises IndexError, modelled as none. -/
def call_model (state : ChatState) (reactAgent : List Msg → List Msg) :
    Option CallModelResult :=
  (reactAgent (buildAgentInput state)).getLast?.map (fun m =>
    if m.isAI then ⟨[m], false⟩
    else ⟨[Msg.ai "Sorry, I encountered an issue."], true⟩)

/-- The slice current_messages[:-2] (graph.py line 63). -/
def sliceAllButLastTwo (current : List Msg) : List Msg :=
  current.take (current.length - 2)

/-- The message selection of summarize_conversation: all but the last two
messages, capped to the most recent 10 when more remain (lines 63-65). -/
def selectToSummarize (current : List Msg) : List Msg :=
  if (sliceAllButLastTwo current).length > 10 then
    lastSlice 10 (sliceAllButLastTwo current)
  else sliceAllButLastTwo current

/-- The transcript loop of summarize_conversation (lines 77-81): one line
per HumanMessage or AIMessage, nothing for other message types. -/
def transcriptLines : List Msg → List String
  | [] => []
  | Msg.human c :: rest => ("User: " ++ c) :: transcriptLines rest
  | Msg.ai c :: rest => ("Assistant: " ++ c) :: transcriptLines rest
  | _ :: rest => transcriptLines rest

/-- The full summarization prompt (lines 72-85): prior summary when present,
header, transcript, closing instruction, joined with newlines. -/
def summaryPromptOf (summary : String) (messagesToSummarize : List Msg) : String :=
  String.intercalate "\n"
    ((if summary = "" then []
      else ["This is the current summary of the conversation: " ++ summary ++ "\n"]) ++
      ["Based on the following recent messages:\n"] ++
      transcriptLines messagesToSummarize ++
      ["\nPlease update or create a concise summary of the entire conversation."])

/-- The update a node returns to the graph: a replacement summary and a
messages delta for the add_messages reducer. -/
structure SummarizeUpdate where
  summary : String
  messages : List Msg
deriving DecidableEq, Repr

/-- Embeds summarize_conversation (graph.py lines 57-91). The chat model is
an abstract generation function; the second component counts how many times
the generation capability was invoked. -/
def summarize_conversation (state : ChatState) (chatModel : List Msg → String) :
    SummarizeUpdate × Nat :=
  if selectToSummarize state.messages = [] then (⟨state.summary, []⟩, 0)
  else
    (⟨chatModel [Msg.human (summaryPromptOf state.summary
        (selectToSummarize state.messages))], []⟩, 1)

/-- The two conditional-edge targets of the conversation node. -/
inductive Branch where
  | summarize
  | done
deriving DecidableEq, Repr

/-- Embeds should_continue (graph.py lines 93-99): route to the
summarize_conversation node when more than 6 messages exist, else to END. -/
def should_continue (state : ChatState) : Branch :=
  if state.messages.length > 6 then Branch.summarize else Branch.done

/-- The add_messages reducer for updates that contain no removals: the
returned delta is appended to the stored log. -/
def addMessages (log upd : List Msg) : List Msg := log ++ upd

/-- One turn of the compiled workflow: START → conversation → conditional
edge → optional summarize_conversation → END, with add_messages appending
each node's returned messages and the summary key overwritten. -/
def runTurn (reactAgent : List Msg → List Msg) (chatModel : List Msg → String)
    (state : ChatState) (userContent : String) : Option ChatState :=
  match call_model ⟨state.messages ++ [Msg.human userContent], state.summary⟩ reactAgent with
  | none => none
  | some r =>
    match should_continue ⟨state.messages ++ [Msg.human userContent] ++ r.messages, state.summary⟩ with
    | Branch.summarize =>
      some ⟨addMessages (state.messages ++ [Msg.human userContent] ++ r.messages)
          (summarize_conversation
            ⟨state.messages ++ [Msg.human userContent] ++ r.messages, state.summary⟩
            chatModel).1.messages,
        (summarize_conversation
          ⟨state.messages ++ [Msg.human userContent] ++ r.messages, state.summary⟩
          chatModel).1.summary⟩
    | Branch.done =>
      some ⟨state.messages ++ [Msg.human userContent] ++ r.messages, state.summary⟩

lemma lastSlice_eq_lastN (n : Nat) (xs : List Msg) : lastSlice n xs = lastN n xs := by
  unfold lastSlice lastN
  rw [List.take_reverse, List.reverse_reverse]

lemma length_lastSlice (n : Nat) (xs : List Msg) :
    (lastSlice n xs).length = min n xs.length := by
  unfold lastSlice
  rw [List.length_drop]
  omega

lemma dropLast_dropLast_eq (xs : List Msg) :
    xs.dropLast.dropLast = xs.take (xs.length - 2) := by
  rw [List.dropLast_eq_take, List.dropLast_eq_take, List.take_take, List.length_take]
  congr 1
  omega

lemma selectToSummarize_eq (xs : List Msg) :
    selectToSummarize xs = lastN 10 xs.dropLast.dropLast := by
  unfold selectToSummarize sliceAllButLastTwo
  rw [← lastSlice_eq_lastN, dropLast_dropLast_eq]
  by_cases h : (xs.take (xs.length - 2)).length > 10
  · rw [if_pos h]
  · rw [if_neg h]
    unfold lastSlice
    have hz : (xs.take (xs.length - 2)).length - 10 = 0 := by omega
    rw [hz, List.drop_zero]

lemma selectToSummarize_length (xs : List Msg) :
    (selectToSummarize xs).length = min 10 (xs.length - 2) := by
  unfold selectToSummarize sliceAllButLastTwo
  by_cases h : (xs.take (xs.length - 2)).length > 10
  · rw [if_pos h, length_lastSlice]
    rw [List.length_take] at h ⊢
    omega
  · rw [if_neg h]
    rw [List.length_take] at h ⊢
    omega

lemma selectToSummarize_suffix (xs : List Msg) :
    selectToSummarize xs <:+ xs.dropLast.dropLast := by
  unfold selectToSummarize sliceAllButLastTwo
  rw [dropLast_dropLast_eq]
  by_cases h : (xs.take (xs.length - 2)).length > 10
  · rw [if_pos h]
    exact List.drop_suffix _ _
  · rw [if_neg h]

/-- Claim C2: the summarization trigger is exact on message count: with at
most 6 messages after the assistant reply, should_continue routes to END
(done) and no summarization branch is taken; with more than 6 (in
particular at 7) it routes to the summarize_conversation branch. -/
theorem C2_trigger_exact (state : ChatState) :
    (state.messages.length ≤ 6 → should_continue state = Branch.done) ∧
    (state.messages.length > 6 → should_continue state = Branch.summarize) := by
  constructor
  · intro h
    unfold should_continue
    rw [if_neg (by omega)]
  · intro h
    unfold should_continue
    rw [if_pos h]

/-- Concrete state with six alternating messages. -/
def sixMsgState : ChatState :=
  ⟨[Msg.human "a", Msg.ai "b", Msg.human "c", Msg.ai "d", Msg.human "e", Msg.ai "f"], ""⟩

/-- Concrete state with seven messages. -/
def sevenMsgState : ChatState :=
  ⟨Msg.human "g" :: sixMsgState.messages, ""⟩

theorem C2_trigger_exact_witness :
    should_continue sixMsgState = Branch.done ∧
    should_continue sevenMsgState = Branch.summarize :=
  ⟨(C2_trigger_exact sixMsgState).1 (by decide),
   (C2_trigger_exact sevenMsgState).2 (by decide)⟩

/-- Claim C3: the react agent input is one system message carrying the
summary exactly when the summary is non-empty, followed by the last five
messages of the thread (all of them when fewer than five exist), a suffix
of the thread kept in original order. -/
theorem C3_agent_input (state : ChatState) :
    buildAgentInput state =
      (if state.summary = "" then []
       else [Msg.system (summarySystemText state.summary)]) ++ lastN 5 state.messages ∧
    lastN 5 state.messages <:+ state.messages ∧
    (lastN 5 state.messages).length = min 5 state.messages.length := by
  refine ⟨?_, ?_, ?_⟩
  · unfold buildAgentInput
    rw [lastSlice_eq_lastN]
  · rw [← lastSlice_eq_lastN]
    exact List.drop_suffix _ _
  · rw [← lastSlice_eq_lastN]
    exact length_lastSlice 5 state.messages

/-- Claim C5: summarize_conversation selects the messages preceding the two
most recent, caps the selection to its most recent 10, and when the
selection is empty returns the existing summary unchanged with zero
invocations of the generation capability. -/
theorem C5_summarize_selection (state : ChatState) (chatModel : List Msg → String) :
    selectToSummarize state.messages = lastN 10 state.messages.dropLast.dropLast ∧
    (selectToSummarize state.messages = [] →
      summarize_conversation state chatModel = (⟨state.summary, []⟩, 0)) := by
  refine ⟨selectToSummarize_eq state.messages, fun h => ?_⟩
  unfold summarize_conversation
  rw [if_pos h]

/-- Concrete state with only two messages, so the fold selection is empty. -/
def twoMsgState : ChatState := ⟨[Msg.human "hi", Msg.ai "hello"], "old summary"⟩

/-- Generation capability used in concrete runs. -/
def demoChatModel : List Msg → String := fun _ => "S"

theorem C5_summarize_selection_witness :
    selectToSummarize twoMsgState.messages = [] ∧
    summarize_conversation twoMsgState demoChatModel = (⟨twoMsgState.summary, []⟩, 0) :=
  ⟨by decide, (C5_summarize_selection twoMsgState demoChatModel).2 (by decide)⟩

/-- Claim C6: summarize_conversation always returns an empty messages delta,
so under the add_messages reducer a summarization step leaves the persisted
message log and its count unchanged. -/
theorem C6_messages_empty (state : ChatState) (chatModel : List Msg → String) :
    (summarize_conversation state chatModel).1.messages = [] ∧
    (addMessages state.messages (summarize_conversation state chatModel).1.messages).length
      = state.messages.length := by
  have h : (summarize_conversation state chatModel).1.messages = [] := by
    unfold summarize_conversation
    split <;> rfl
  refine ⟨h, ?_⟩
  rw [h]
  unfold addMessages
  rw [List.append_nil]

/-- Per-message transcript rendering: a line for human and assistant
messages, nothing for other types. -/
def renderLine : Msg → Option String
  | Msg.human c => some ("User: " ++ c)
  | Msg.ai c => some ("Assistant: " ++ c)
  | _ => none

lemma transcriptLines_eq_filterMap (l : List Msg) :
    transcriptLines l = l.filterMap renderLine := by
  induction l with
  | nil => rfl
  | cons m rest ih =>
    cases m <;> simp [transcriptLines, renderLine, List.filterMap_cons, ih]

/-- Claim C10: the summarization transcript keeps only the contents of human
and assistant messages among the selected ones; system and tool messages
produce no transcript line, yet every selected message counts toward the
10-message cap regardless of its type. -/
theorem C10_transcript_filter (msgs : List Msg) :
    transcriptLines (selectToSummarize msgs) =
      (selectToSummarize msgs).filterMap renderLine ∧
    (∀ c, renderLine (Msg.system c) = none ∧ renderLine (Msg.tool c) = none) ∧
    (selectToSummarize msgs).length = min 10 (msgs.length - 2) :=
  ⟨transcriptLines_eq_filterMap _, fun _ => ⟨rfl, rfl⟩, selectToSummarize_length msgs⟩

/-- A react agent whose final message is not assistant-authored. -/
def badAgent : List Msg → List Msg := fun _ => [Msg.tool "tool output only"]

/-- Claim C1 counterexample: when the react agent terminates without an
assistant-authored final message, call_model does not abort the turn with
untouched state; it surfaces an error and still appends a fallback
AssistantMessage to the thread. -/
theorem C1_counterexample :
    call_model ⟨[Msg.human "hi"], ""⟩ badAgent =
      some ⟨[Msg.ai "Sorry, I encountered an issue."], true⟩ ∧
    (some ⟨[Msg.ai "Sorry, I encountered an issue."], true⟩ : Option CallModelResult)
      ≠ none := by decide

/-- Claim C1 amended: whenever the react agent returns at least one message,
call_model appends exactly one message and it is an AIMessage — the agent's
own final message when assistant-authored, else a fallback apology; only
when the agent returns no messages at all does the turn abort (IndexError)
with no message appended. -/
theorem C1_one_assistant_message (state : ChatState) (reactAgent : List Msg → List Msg) :
    (reactAgent (buildAgentInput state) = [] → call_model state reactAgent = none) ∧
    (reactAgent (buildAgentInput state) ≠ [] →
      ∃ r, call_model state reactAgent = some r ∧ r.messages.length = 1 ∧
        ∀ m ∈ r.messages, m.isAI = true) := by
  constructor
  · intro h
    unfold call_model
    rw [h]
    rfl
  · intro h
    cases hg : (reactAgent (buildAgentInput state)).getLast? with
    | none => exact absurd (List.getLast?_eq_none_iff.mp hg) h
    | some m =>
      unfold call_model
      rw [hg]
      cases hai : m.isAI with
      | true =>
        refine ⟨⟨[m], false⟩, ?_, rfl, ?_⟩
        · simp [Option.map, hai]
        · intro x hx
          rw [List.mem_singleton] at hx
          rw [hx]
          exact hai
      | false =>
        refine ⟨⟨[Msg.ai "Sorry, I encountered an issue."], true⟩, ?_, rfl, ?_⟩
        · simp [Option.map, hai]
        · intro x hx
          rw [List.mem_singleton] at hx
          rw [hx]
          rfl

/-- A react agent that echoes its input and appends an assistant reply. -/
def goodAgent : List Msg → List Msg := fun input => input ++ [Msg.ai "hello there"]

/-- A react agent that returns no messages at all. -/
def emptyAgent : List Msg → List Msg := fun _ => []

theorem C1_one_assistant_message_witness :
    call_model ⟨[Msg.human "hi"], ""⟩ emptyAgent = none ∧
    ∃ r, call_model ⟨[Msg.human "hi"], ""⟩ goodAgent = some r ∧
      r.messages.length = 1 ∧ ∀ m ∈ r.messages, m.isAI = true :=
  ⟨(C1_one_assistant_message ⟨[Msg.human "hi"], ""⟩ emptyAgent).1 (by decide),
   (C1_one_assistant_message ⟨[Msg.human "hi"], ""⟩ goodAgent).2 (by decide)⟩

/-- A react agent for concrete runs: replies with the input length, so
distinct turns get distinct reply contents. -/
def demoAgent : List Msg → List Msg :=
  fun input => input ++ [Msg.ai (toString input.length)]

/-- Runs one turn per user message, starting from the empty thread. -/
def runScript (users : List String) : Option ChatState :=
  users.foldl (fun acc u => acc.bind (fun s => runTurn demoAgent demoChatModel s u))
    (some ⟨[], ""⟩)

/-- The thread reached after four user turns (8 messages). -/
def demoState4 : ChatState := (runScript ["u1", "u2", "u3", "u4"]).getD ⟨[], ""⟩

/-- The thread reached after five user turns (10 messages). -/
def demoState5 : ChatState := (runScript ["u1", "u2", "u3", "u4", "u5"]).getD ⟨[], ""⟩

/-- Claim C4 counterexample: on the reachable 8-message thread, the user
message of turn 3 lies both inside the summarization fold and inside the
retained last-5 prompt window, and the user message of turn 1 is folded by
the summarization at turn 4 and folded again at turn 5. -/
theorem C4_counterexample :
    Msg.human "u3" ∈ selectToSummarize demoState4.messages ∧
    Msg.human "u3" ∈ lastN 5 demoState4.messages ∧
    Msg.human "u1" ∈ selectToSummarize demoState4.messages ∧
    Msg.human "u1" ∈ selectToSummarize demoState5.messages := by decide

/-- Claim C4 amended: the summarization fold excludes only the two most
recent messages — it is a suffix of the thread minus those two, of length
min 10 (length - 2) — so messages inside the retained last-5 window can
still be folded and successive folds can overlap, summarizing a message
more than once. -/
theorem C4_fold_bounds (msgs : List Msg) :
    selectToSummarize msgs <:+ msgs.dropLast.dropLast ∧
    (selectToSummarize msgs).length = min 10 (msgs.length - 2) :=
  ⟨selectToSummarize_suffix msgs, selectToSummarize_length msgs⟩

/-- A successful per-URL extraction: the readability title and the text
BeautifulSoup extracts from the readable summary html. -/
structure FetchOk where
  title : String
  content : String
deriving DecidableEq, Repr

/-- One entry of the fetch_url_content return list: the success shape with
url, title and content, or the failure shape with url and error string. -/
inductive FetchEntry where
  | ok (url title content : String)
  | err (url error : String)
deriving DecidableEq, Repr

/-- The per-URL loop body of fetch_url_content (graph.py lines 171-183),
with the whole fallible pipeline (requests.get, raise_for_status, Document,
summary, BeautifulSoup, get_text) abstracted as one fallible fetch. -/
def fetchLoop (fetch : String → Except String FetchOk) :
    List String → List FetchEntry → List FetchEntry
  | [], results => results
  | url :: rest, results =>
    match fetch url with
    | Except.ok d => fetchLoop fetch rest (results ++ [FetchEntry.ok url d.title d.content])
    | Except.error e => fetchLoop fetch rest (results ++ [FetchEntry.err url e])

/-- Embeds fetch_url_content (graph.py lines 158-184). -/
def fetch_url_content (fetch : String → Except String FetchOk)
    (urls : List String) : List FetchEntry :=
  fetchLoop fetch urls []

/-- The entry fetch_url_content produces for a single URL. -/
def fetchEntryOf (fetch : String → Except String FetchOk) (url : String) : FetchEntry :=
  match fetch url with
  | Except.ok d => FetchEntry.ok url d.title d.content
  | Except.error e => FetchEntry.err url e

lemma fetchLoop_eq_map (fetch : String → Except String FetchOk)
    (urls : List String) (acc : List FetchEntry) :
    fetchLoop fetch urls acc = acc ++ urls.map (fetchEntryOf fetch) := by
  induction urls generalizing acc with
  | nil => simp [fetchLoop]
  | cons u rest ih =>
    cases h : fetch u with
    | ok d => simp [fetchLoop, fetchEntryOf, h, ih]
    | error e => simp [fetchLoop, fetchEntryOf, h, ih]

/-- Claim C7: fetch_url_content returns exactly one entry per input URL in
order — the success record when the per-URL fetch and extraction succeed,
the error record when they fail — so a failure on one URL never aborts the
processing of the remaining URLs. -/
theorem C7_fetch_isolated (fetch : String → Except String FetchOk) (urls : List String) :
    (fetch_url_content fetch urls).length = urls.length ∧
    (∀ i : Nat, (fetch_url_content fetch urls)[i]? =
      (urls[i]?).map (fetchEntryOf fetch)) ∧
    (∀ url d, fetch url = Except.ok d →
      fetchEntryOf fetch url = FetchEntry.ok url d.title d.content) ∧
    (∀ url e, fetch url = Except.error e →
      fetchEntryOf fetch url = FetchEntry.err url e) := by
  have hmap : fetch_url_content fetch urls = urls.map (fetchEntryOf fetch) := by
    unfold fetch_url_content
    rw [fetchLoop_eq_map]
    rfl
  refine ⟨?_, ?_, ?_, ?_⟩
  · rw [hmap, List.length_map]
  · intro i
    rw [hmap, List.getElem?_map]
  · intro url d h
    unfold fetchEntryOf
    rw [h]
  · intro url e h
    unfold fetchEntryOf
    rw [h]

/-- Fetch capability with one good and one failing URL. -/
def demoFetch : String → Except String FetchOk := fun url =>
  if url = "https://good.example" then Except.ok ⟨"Page title", "Readable body"⟩
  else Except.error "connection timed out"

theorem C7_fetch_isolated_witness :
    fetch_url_content demoFetch ["https://good.example", "https://bad.example"] =
      [FetchEntry.ok "https://good.example" "Page title" "Readable body",
       FetchEntry.err "https://bad.example" "connection timed out"] ∧
    fetchEntryOf demoFetch "https://good.example" =
      FetchEntry.ok "https://good.example" "Page title" "Readable body" ∧
    fetchEntryOf demoFetch "https://bad.example" =
      FetchEntry.err "https://bad.example" "connection timed out" :=
  ⟨by decide,
   (C7_fetch_isolated demoFetch ["https://good.example", "https://bad.example"]).2.2.1
     "https://good.example" ⟨"Page title", "Readable body"⟩ rfl,
   (C7_fetch_isolated demoFetch ["https://good.example", "https://bad.example"]).2.2.2
     "https://bad.example" "connection timed out" rfl⟩

/-- The value search_web stores for one provider result (graph.py lines
132-139): query, title, href, body, timestamp, and the indexed text field
title concatenated with body. -/
structure SearchValue where
  query : String
  title : String
  href : String
  body : String
  timestamp : String
  text : String
deriving DecidableEq, Repr

/-- One record of the memory store: a namespace tuple, a key and a value. -/
structure MemoryRecord where
  ns : List String
  key : String
  value : SearchValue
deriving DecidableEq, Repr

/-- One result from the external search provider (a result dict with
title, href and body fields). -/
structure ProviderResult where
  title : String
  href : String
  body : String
deriving DecidableEq, Repr

/-- Modelled store.put: overwrite any record with the same namespace and
key, then append the new record. -/
def putRecord (store : List MemoryRecord) (ns : List String) (key : String)
    (value : SearchValue) : List MemoryRecord :=
  store.filter (fun r => !(decide (r.ns = ns ∧ r.key = key))) ++ [⟨ns, key, value⟩]

/-- The enumerate loop of search_web (graph.py lines 130-146): store one
record per provider result under key query_timestamp_index. -/
def putBatch (ns : List String) (query timestamp : String) :
    List ProviderResult → Nat → List MemoryRecord → List MemoryRecord
  | [], _, store => store
  | pr :: rest, i, store =>
    putBatch ns query timestamp rest (i + 1)
      (putRecord store ns (query ++ "_" ++ timestamp ++ "_" ++ toString i)
        ⟨query, pr.title, pr.href, pr.body, timestamp, pr.title ++ " " ++ pr.body⟩)

/-- Insertion into a list kept in descending score order. -/
def insertRanked (score : MemoryRecord → Nat) (r : MemoryRecord) :
    List MemoryRecord → List MemoryRecord
  | [] => [r]
  | x :: xs => if score r ≤ score x then x :: insertRanked score r xs
    else r :: x :: xs

/-- Records sorted by descending score: the ranking of a semantic search. -/
def rankDesc (score : MemoryRecord → Nat) : List MemoryRecord → List MemoryRecord
  | [] => []
  | r :: rs => insertRanked score r (rankDesc score rs)

/-- Modelled store.search: the records of the namespace ranked by a
relevance score for the query (the abstract embedding similarity),
truncated to the limit. -/
def storeSearch (score : String → SearchValue → Nat) (store : List MemoryRecord)
    (ns : List String) (query : String) (limit : Nat) : List MemoryRecord :=
  (rankDesc (fun r => score query r.value)
    (store.filter (fun r => decide (r.ns = ns)))).take limit

/-- What search_web returns: the record list of a semantic search (rag
mode), or the raw provider result list. -/
inductive SearchReturn where
  | records (rs : List MemoryRecord)
  | raw (rs : List ProviderResult)
deriving DecidableEq, Repr

/-- Embeds search_web (graph.py lines 114-156): store every provider result
under namespace (web_search, user_id), then return either the top-1
semantic match of the namespace (search_method_rag) or the raw provider
results. Returns the tool result together with the updated store. -/
def search_web (score : String → SearchValue → Nat) (userId : String)
    (searchMethodRag : Bool) (providerResults : List ProviderResult)
    (timestamp : String) (store : List MemoryRecord) (query : String) :
    SearchReturn × List MemoryRecord :=
  let ns := ["web_search", userId]
  let store2 := putBatch ns query timestamp providerResults 0 store
  if searchMethodRag then
    (SearchReturn.records (storeSearch score store2 ns query 1), store2)
  else
    (SearchReturn.raw providerResults, store2)

lemma insertRanked_length (score : MemoryRecord → Nat) (r : MemoryRecord)
    (l : List MemoryRecord) : (insertRanked score r l).length = l.length + 1 := by
  induction l with
  | nil => rfl
  | cons x xs ih =>
    unfold insertRanked
    by_cases h : score r ≤ score x
    · rw [if_pos h]
      simp [ih]
    · rw [if_neg h]
      simp

lemma rankDesc_length (score : MemoryRecord → Nat) (l : List MemoryRecord) :
    (rankDesc score l).length = l.length := by
  induction l with
  | nil => rfl
  | cons r rs ih =>
    unfold rankDesc
    rw [insertRanked_length, ih]
    rfl

lemma rankDesc_eq_nil_iff (score : MemoryRecord → Nat) (l : List MemoryRecord) :
    rankDesc score l = [] ↔ l = [] := by
  constructor
  · intro h
    have := rankDesc_length score l
    rw [h] at this
    exact List.length_eq_zero.mp this.symm
  · intro h
    rw [h]
    rfl

lemma insertRanked_mem (score : MemoryRecord → Nat) (r x : MemoryRecord)
    (l : List MemoryRecord) : x ∈ insertRanked score r l ↔ x = r ∨ x ∈ l := by
  induction l with
  | nil => simp [insertRanked]
  | cons y ys ih =>
    unfold insertRanked
    by_cases h : score r ≤ score y
    · rw [if_pos h]
      simp [ih]
      tauto
    · rw [if_neg h]
      simp

lemma rankDesc_mem (score : MemoryRecord → Nat) (x : MemoryRecord)
    (l : List MemoryRecord) : x ∈ rankDesc score l ↔ x ∈ l := by
  induction l with
  | nil => simp [rankDesc]
  | cons r rs ih =>
    unfold rankDesc
    rw [insertRanked_mem]
    simp [ih]

lemma rankDesc_head_max (score : MemoryRecord → Nat) (l : List MemoryRecord)
    (h t : _) (hht : rankDesc score l = h :: t) : ∀ x ∈ l, score x ≤ score h := by
  induction l generalizing h t with
  | nil => cases hht
  | cons r rs ih =>
    unfold rankDesc at hht
    cases hr : rankDesc score rs with
    | nil =>
      rw [hr] at hht
      unfold insertRanked at hht
      cases hht
      intro x hx
      have hrs : rs = [] := (rankDesc_eq_nil_iff score rs).mp hr
      rw [hrs] at hx
      rw [List.mem_singleton] at hx
      rw [hx]
    | cons y ys =>
      rw [hr] at hht
      unfold insertRanked at hht
      by_cases hc : score r ≤ score y
      · rw [if_pos hc] at hht
        obtain ⟨hh, _⟩ := List.cons.inj hht
        intro x hx
        rw [List.mem_cons] at hx
        rcases hx with hx | hx
        · rw [hx, ← hh]
          exact hc
        · rw [← hh]
          exact ih y ys hr x hx
      · rw [if_neg hc] at hht
        obtain ⟨hh, _⟩ := List.cons.inj hht
        intro x hx
        rw [List.mem_cons] at hx
        rcases hx with hx | hx
        · rw [hx, ← hh]
        · rw [← hh]
          exact le_trans (ih y ys hr x hx) (le_of_not_le hc)

lemma take_one_nonempty_head (l : List MemoryRecord) (r : MemoryRecord)
    (hr : r ∈ l.take 1) : ∃ t, l = r :: t := by
  cases l with
  | nil => cases hr
  | cons a t =>
    simp [List.take] at hr
    exact ⟨t, by rw [hr]⟩

lemma take_one_eq_nil_iff (l : List MemoryRecord) : l.take 1 = [] ↔ l = [] := by
  cases l <;> simp

lemma search_web_store (score : String → SearchValue → Nat) (userId : String)
    (rag : Bool) (prs : List ProviderResult) (ts : String)
    (store : List MemoryRecord) (q : String) :
    (search_web score userId rag prs ts store q).2 =
      putBatch ["web_search", userId] q ts prs 0 store := by
  unfold search_web
  split <;> rfl

lemma search_web_rag_fst (score : String → SearchValue → Nat) (userId : String)
    (prs : List ProviderResult) (ts : String) (store : List MemoryRecord) (q : String) :
    (search_web score userId true prs ts store q).1 =
      SearchReturn.records (storeSearch score
        (putBatch ["web_search", userId] q ts prs 0 store) ["web_search", userId] q 1) := by
  simp [search_web]

/-- Claim C8 amended: zero provider results leave the store untouched in
both modes, and the raw mode returns the empty list; but the rerank mode
returns the top semantic match over the whole (web_search, user) namespace,
which is empty exactly when the namespace held no records before the call. -/
theorem C8_no_writes_on_empty (score : String → SearchValue → Nat)
    (userId timestamp query : String) (store : List MemoryRecord) :
    (search_web score userId false [] timestamp store query).2 = store ∧
    (search_web score userId true [] timestamp store query).2 = store ∧
    (search_web score userId false [] timestamp store query).1 = SearchReturn.raw [] ∧
    ((search_web score userId true [] timestamp store query).1 = SearchReturn.records [] ↔
      store.filter (fun r => decide (r.ns = ["web_search", userId])) = []) := by
  refine ⟨?_, ?_, ?_, ?_⟩
  · rw [search_web_store]
    rfl
  · rw [search_web_store]
    rfl
  · simp [search_web]
  · rw [search_web_rag_fst]
    unfold storeSearch
    have hput : putBatch ["web_search", userId] query timestamp [] 0 store = store := rfl
    rw [hput]
    constructor
    · intro h
      simp only [SearchReturn.records.injEq] at h
      rw [take_one_eq_nil_iff, rankDesc_eq_nil_iff] at h
      exact h
    · intro h
      rw [h]
      rfl

/-- A record written to the web_search namespace by an earlier query. -/
def oldRec : MemoryRecord :=
  ⟨["web_search", "u"], "oldq_ts0_0",
   ⟨"oldq", "old title", "oldhref", "old body", "ts0",
    "a much much longer stored text blob"⟩⟩

/-- An abstract relevance score: the length of the stored text field. -/
def lenScore : String → SearchValue → Nat := fun _ v => v.text.length

/-- Claim C8 counterexample: with zero provider results but a record from an
earlier query already in the namespace, rerank mode returns that record, not
an empty result set. -/
theorem C8_counterexample :
    (search_web lenScore "u" true [] "ts1" [oldRec] "q").1 =
      SearchReturn.records [oldRec] ∧
    SearchReturn.records [oldRec] ≠ SearchReturn.records ([] : List MemoryRecord) := by
  decide

theorem C8_no_writes_on_empty_witness :
    (search_web lenScore "u" true [] "ts1" [] "q").1 = SearchReturn.records [] ∧
    (search_web lenScore "u" true [] "ts1" [] "q").2 = [] :=
  ⟨((C8_no_writes_on_empty lenScore "u" "ts1" "q" []).2.2.2).mpr (by decide),
   (C8_no_writes_on_empty lenScore "u" "ts1" "q" []).2.1⟩

/-- The provider result of the current query in the concrete run. -/
def newPr : ProviderResult := ⟨"new title", "href", "body"⟩

/-- Claim C9 counterexample: in rerank mode the returned top match is the
record of an earlier query, not a record of the batch just stored for this
query. -/
theorem C9_counterexample :
    (search_web lenScore "u" true [newPr] "ts1" [oldRec] "q").1 =
      SearchReturn.records [oldRec] ∧
    oldRec.value.query ≠ "q" ∧
    (∀ r ∈ putBatch ["web_search", "u"] "q" "ts1" [newPr] 0 [], oldRec ≠ r) := by
  decide

/-- The record list the rerank mode returns: the top-1 semantic match of
the whole namespace after the batch write. -/
def ragTop (score : String → SearchValue → Nat) (userId : String)
    (providerResults : List ProviderResult) (timestamp query : String)
    (store : List MemoryRecord) : List MemoryRecord :=
  storeSearch score
    (search_web score userId true providerResults timestamp store query).2
    ["web_search", userId] query 1

/-- Claim C9 amended: with rerank disabled search_web returns the raw
provider list; with rerank enabled it returns at most one record, a record
of the whole (web_search, user) namespace of the updated store — records of
earlier queries included — whose score is maximal over that namespace. -/
theorem C9_rag_top_of_namespace (score : String → SearchValue → Nat)
    (userId : String) (providerResults : List ProviderResult)
    (timestamp query : String) (store : List MemoryRecord) :
    (search_web score userId false providerResults timestamp store query).1 =
      SearchReturn.raw providerResults ∧
    (search_web score userId true providerResults timestamp store query).1 =
      SearchReturn.records (ragTop score userId providerResults timestamp query store) ∧
    (ragTop score userId providerResults timestamp query store).length ≤ 1 ∧
    ∀ r ∈ ragTop score userId providerResults timestamp query store,
      r ∈ (search_web score userId true providerResults timestamp store query).2 ∧
      r.ns = ["web_search", userId] ∧
      ∀ x ∈ (search_web score userId true providerResults timestamp store query).2,
        x.ns = ["web_search", userId] → score query x.value ≤ score query r.value := by
  refine ⟨by simp [search_web], ?_, ?_, ?_⟩
  · rw [search_web_rag_fst]
    unfold ragTop
    rw [search_web_store]
  · unfold ragTop storeSearch
    rw [List.length_take]
    omega
  · intro r hr
    unfold ragTop storeSearch at hr
    have hrank : r ∈ rankDesc (fun x => score query x.value)
        ((search_web score userId true providerResults timestamp store query).2.filter
          (fun x => decide (x.ns = ["web_search", userId]))) :=
      List.take_subset 1 _ hr
    have hfl := (rankDesc_mem _ _ _).mp hrank
    rw [List.mem_filter] at hfl
    refine ⟨hfl.1, of_decide_eq_true hfl.2, ?_⟩
    obtain ⟨t, ht⟩ := take_one_nonempty_head _ r hr
    intro x hx hxns
    have hxfl : x ∈ (search_web score userId true providerResults timestamp store query).2.filter
        (fun y => decide (y.ns = ["web_search", userId])) := by
      rw [List.mem_filter]
      exact ⟨hx, decide_eq_true hxns⟩
    exact rankDesc_head_max _ _ r t ht x hxfl

theorem C9_rag_top_of_namespace_witness :
    oldRec ∈ (search_web lenScore "u" true [newPr] "ts1" [oldRec] "q").2 ∧
    oldRec.ns = ["web_search", "u"] ∧
    ∀ x ∈ (search_web lenScore "u" true [newPr] "ts1" [oldRec] "q").2,
      x.ns = ["web_search", "u"] → lenScore "q" x.value ≤ lenScore "q" oldRec.value :=
  (C9_rag_top_of_namespace lenScore "u" [newPr] "ts1" "q" [oldRec]).2.2.2 oldRec (by decide)
